import Mathlib

/-!
Verification of the `slow` mesh-overlay repository.

Shallow embedding of the core data structures and algorithms:
tracker.rs (PacketTracker), route.rs (RoutePackageInfo, Route, RouteTable),
junction_id.rs (JunctionId codec), package.rs (SlowPackage codec and hop
handling), junction.rs (forward path), tcp/tcp_frame.rs (SlowTcpFrame).

Machine integers are modelled as Nat with explicit reduction modulo 2^w at
the points where the Rust types enforce a width; the Rust release-mode
wrapping semantics of casts and arithmetic is made explicit.
-/

namespace Slow

-- ===========================================================================
-- tracker.rs : PacketTracker
-- ===========================================================================

/-- Result of updating a packet (tracker.rs, enum UpdateResult). -/
inductive UpdateResult where
  | Success
  | Duplicate
  | Old
deriving DecidableEq, Repr

/-- Tracks packet receipt information (tracker.rs, struct PacketTracker).
Both fields are u64 in the source. -/
structure PacketTracker where
  highest_packet_id : Nat
  packet_bitfield : Nat
deriving DecidableEq, Repr

/-- Value of `a as i64 - b as i64` for u64 inputs, with release-mode
wrapping: the signed interpretation of (a - b) mod 2^64. -/
def wrapSubI64 (a b : Nat) : Int :=
  let d : Nat := (a % 2 ^ 64 + 2 ^ 64 - b % 2 ^ 64) % 2 ^ 64
  if d < 2 ^ 63 then (d : Int) else (d : Int) - 2 ^ 64

/-- PacketTracker::new (tracker.rs). -/
def PacketTracker.new : PacketTracker := { highest_packet_id := 0, packet_bitfield := 0 }

/-- PacketTracker::update (tracker.rs lines 48-86), transcribed branch by
branch; `shift` is the i64 difference of the u64 ids. -/
def PacketTracker.update (t : PacketTracker) (packet_id : Nat) : UpdateResult × PacketTracker :=
  let pid := packet_id % 2 ^ 64
  let shift : Int := wrapSubI64 pid t.highest_packet_id
  if shift = 0 then (.Duplicate, t)
  else if shift < -63 then (.Old, t)
  else if shift < 0 then
    let mask := 2 ^ (-shift).toNat
    if t.packet_bitfield &&& mask ≠ 0 then (.Duplicate, t)
    else (.Success, { t with packet_bitfield := t.packet_bitfield ||| mask })
  else if shift > 63 then
    (.Success, { highest_packet_id := pid, packet_bitfield := 1 })
  else
    (.Success, { highest_packet_id := pid,
                 packet_bitfield := (t.packet_bitfield <<< shift.toNat) % 2 ^ 64 ||| 1 })

/-- Folding a list of ids through the tracker, keeping only the state. -/
def runTracker (t : PacketTracker) (ids : List Nat) : PacketTracker :=
  ids.foldl (fun s a => (s.update a).snd) t

/-- Folding a list of ids through the tracker, collecting the results. -/
def runTrackerResults (t : PacketTracker) (ids : List Nat) : List UpdateResult × PacketTracker :=
  ids.foldl (fun acc a =>
    let r := acc.2.update a
    (acc.1 ++ [r.fst], r.snd)) ([], t)

-- ===========================================================================
-- junction_id.rs : JunctionId
-- ===========================================================================

/-- UTF-8 validation automaton step over a byte list. The state carries the
number of continuation bytes still expected together with the admissible
range for the next byte (RFC 3629 table, as enforced by str::from_utf8). -/
def utf8Fold : List Nat → Nat × Nat × Nat → Bool
  | [], (k, _, _) => k = 0
  | b :: rest, (0, _, _) =>
    if b ≤ 0x7F then utf8Fold rest (0, 0, 0)
    else if 0xC2 ≤ b ∧ b ≤ 0xDF then utf8Fold rest (1, 0x80, 0xBF)
    else if b = 0xE0 then utf8Fold rest (2, 0xA0, 0xBF)
    else if 0xE1 ≤ b ∧ b ≤ 0xEC then utf8Fold rest (2, 0x80, 0xBF)
    else if b = 0xED then utf8Fold rest (2, 0x80, 0x9F)
    else if 0xEE ≤ b ∧ b ≤ 0xEF then utf8Fold rest (2, 0x80, 0xBF)
    else if b = 0xF0 then utf8Fold rest (3, 0x90, 0xBF)
    else if 0xF1 ≤ b ∧ b ≤ 0xF3 then utf8Fold rest (3, 0x80, 0xBF)
    else if b = 0xF4 then utf8Fold rest (3, 0x80, 0x8F)
    else false
  | b :: rest, (k + 1, lo, hi) =>
    if lo ≤ b ∧ b ≤ hi then utf8Fold rest (k, 0x80, 0xBF) else false

/-- Whether a byte list is valid UTF-8 (std::str::from_utf8 succeeds). -/
def validUtf8 (l : List Nat) : Bool := utf8Fold l (0, 0, 0)

/-- The unique identifier of a network junction (junction_id.rs). The id
String is represented by its UTF-8 byte list. -/
structure JunctionId where
  id : List Nat
deriving DecidableEq, Repr

/-- Little-endian bytes of a u16 value (u16::to_le_bytes composed with the
`as u16` cast). -/
def le16 (n : Nat) : List Nat := [n % 256, n / 256 % 256]

/-- Value of u16::from_le_bytes on two bytes. -/
def fromLe16 (b0 b1 : Nat) : Nat := b0 % 256 + b1 % 256 * 256

/-- JunctionId::pack (junction_id.rs lines 33-46): two little-endian length
bytes followed by the id bytes; the length is the byte count cast `as u16`. -/
def JunctionId.pack (j : JunctionId) : List Nat := le16 j.id.length ++ j.id

/-- JunctionId::unpack (junction_id.rs lines 57-76). -/
def JunctionId.unpack (data : List Nat) : Option JunctionId :=
  if data.length < 2 then none
  else
    let id_len := fromLe16 (data.getD 0 0) (data.getD 1 0)
    if data.length < 2 + id_len then none
    else
      let bytes := (data.drop 2).take id_len
      if validUtf8 bytes then some ⟨bytes⟩ else none

-- ===========================================================================
-- route.rs : RoutePackageInfo, Route, RouteTable
-- ===========================================================================

/-- Value of `a as i32 - b as i32` for u32 inputs, with release-mode
wrapping: the signed interpretation of (a - b) mod 2^32. -/
def wrapSubI32 (a b : Nat) : Int :=
  let d : Nat := (a % 2 ^ 32 + 2 ^ 32 - b % 2 ^ 32) % 2 ^ 32
  if d < 2 ^ 31 then (d : Int) else (d : Int) - 2 ^ 32

/-- Package-window state for one destination (route.rs, RoutePackageInfo).
Both fields are u32 in the source. -/
structure RoutePackageInfo where
  greatest_package_id : Nat
  package_bitfield : Nat
deriving DecidableEq, Repr

/-- RoutePackageInfo::new (route.rs). -/
def RoutePackageInfo.new : RoutePackageInfo := { greatest_package_id := 0, package_bitfield := 0 }

/-- RoutePackageInfo::update (route.rs lines 44-73): the 32-bit sliding
window; returns true iff the id was admitted, together with the new state. -/
def RoutePackageInfo.update (r : RoutePackageInfo) (package_id : Nat) : Bool × RoutePackageInfo :=
  let pid := package_id % 2 ^ 32
  let shift : Int := wrapSubI32 pid r.greatest_package_id
  if shift = 0 ∨ shift < -31 then (false, r)
  else if shift < 0 then
    let mask := 2 ^ (-shift).toNat
    if r.package_bitfield &&& mask ≠ 0 then (false, r)
    else (true, { r with package_bitfield := r.package_bitfield ||| mask })
  else if shift > 31 then
    (true, { greatest_package_id := pid, package_bitfield := 1 })
  else
    (true, { greatest_package_id := pid,
             package_bitfield := (r.package_bitfield <<< shift.toNat) % 2 ^ 32 ||| 1 })

/-- Next-hop socket addresses, modelled as an abstract key. -/
abbrev SocketAddr := Nat

/-- Route information (route.rs, RouteInfo). The `time` field is an f32 in
the source; it is carried as its raw 32-bit pattern and never interpreted. -/
structure RouteInfo where
  hops : Nat
  time : Nat
deriving DecidableEq, Repr

/-- Candidate next hops for one destination (route.rs, Route). The HashMap
from SocketAddr to RouteInfo is modelled as an association list with unique
keys; insert replaces the binding of an existing key. -/
structure Route where
  routes : List (SocketAddr × RouteInfo)
  greatest_package_id : Nat
  package_info : RoutePackageInfo
deriving DecidableEq, Repr

/-- Route::new (route.rs). -/
def Route.new : Route := { routes := [], greatest_package_id := 0, package_info := .new }

/-- HashMap::insert on the association-list model. -/
def insertAddr (rs : List (SocketAddr × RouteInfo)) (addr : SocketAddr) (info : RouteInfo) :
    List (SocketAddr × RouteInfo) :=
  if rs.any (fun p => p.1 = addr) then
    rs.map (fun p => if p.1 = addr then (addr, info) else p)
  else
    rs ++ [(addr, info)]

/-- Route::update_route (route.rs lines 118-130): inserts the entry, runs
the package window (discarding its boolean result, as the source does), and
returns the pre-call greatest package id as a u32. -/
def Route.update_route (r : Route) (addr : SocketAddr) (hops : Nat) (time : Nat)
    (package_id : Nat) : Nat × Route :=
  let routes' := insertAddr r.routes addr { hops := hops, time := time }
  let pinfo' := (r.package_info.update package_id).snd
  if package_id % 2 ^ 32 > r.greatest_package_id then
    (r.greatest_package_id,
     { routes := routes', greatest_package_id := package_id % 2 ^ 32, package_info := pinfo' })
  else
    (r.greatest_package_id,
     { routes := routes', greatest_package_id := r.greatest_package_id, package_info := pinfo' })

/-- Folding step of Iterator::min_by_key on route entries keyed by hop
count: the first entry with minimal hops is kept. -/
def bestFold (acc : Option (SocketAddr × RouteInfo)) (p : SocketAddr × RouteInfo) :
    Option (SocketAddr × RouteInfo) :=
  match acc with
  | none => some p
  | some q => if p.2.hops < q.2.hops then some p else some q

/-- Route::get_best_route (route.rs lines 137-142): min_by_key over the
entries by hop count, returning the address. -/
def Route.get_best_route (r : Route) : Option SocketAddr :=
  (r.routes.foldl bestFold none).map (fun p => p.1)

/-- Table of routes keyed by junction id (route.rs, RouteTable); the HashMap
is modelled as an association list with unique keys. -/
structure RouteTable where
  junctions : List (JunctionId × Route)
deriving DecidableEq, Repr

/-- RouteTable::new (route.rs). -/
def RouteTable.new : RouteTable := { junctions := [] }

/-- HashMap::get on the association-list model. -/
def lookupJunction (js : List (JunctionId × Route)) (j : JunctionId) : Option Route :=
  match js with
  | [] => none
  | (k, r) :: rest => if k = j then some r else lookupJunction rest j

/-- RouteTable::update_route (route.rs lines 172-186): entry-or-insert then
Route::update_route; like the latter it returns a u32, not the boolean
admit result of the window. -/
def RouteTable.update_route (t : RouteTable) (junction_id : JunctionId) (addr : SocketAddr)
    (hops : Nat) (time : Nat) (package_id : Nat) : Nat × RouteTable :=
  let route := (lookupJunction t.junctions junction_id).getD Route.new
  let (ret, route') := route.update_route addr hops time package_id
  let js :=
    if (lookupJunction t.junctions junction_id).isSome then
      t.junctions.map (fun p => if p.1 = junction_id then (junction_id, route') else p)
    else
      t.junctions ++ [(junction_id, route')]
  (ret, { junctions := js })

/-- RouteTable::get_best_route (route.rs lines 197-201). -/
def RouteTable.get_best_route (t : RouteTable) (junction_id : JunctionId) : Option SocketAddr :=
  (lookupJunction t.junctions junction_id).bind Route.get_best_route

/-- Routes currently recorded for a destination (empty when absent). -/
def RouteTable.routesOf (t : RouteTable) (junction_id : JunctionId) :
    List (SocketAddr × RouteInfo) :=
  ((lookupJunction t.junctions junction_id).map Route.routes).getD []

-- ===========================================================================
-- package.rs : SlowPackage
-- ===========================================================================

/-- Little-endian bytes of a u32 value (u32::to_le_bytes). -/
def le32 (n : Nat) : List Nat :=
  [n % 256, n / 256 % 256, n / 2 ^ 16 % 256, n / 2 ^ 24 % 256]

/-- Value of u32::from_le_bytes on four bytes. -/
def fromLe32 (b0 b1 b2 b3 : Nat) : Nat :=
  b0 % 256 + b1 % 256 * 256 + b2 % 256 * 2 ^ 16 + b3 % 256 * 2 ^ 24

/-- Header of a SlowPackage (package.rs, SlowPackageHeader). package_type
and hop_count are u8, package_id is u32 and payload_size is u16 in the
source. -/
structure SlowPackageHeader where
  package_type : Nat
  recipient_id : JunctionId
  sender_id : JunctionId
  hop_count : Nat
  package_id : Nat
  payload_size : Nat
deriving DecidableEq, Repr

/-- A package in the Slow network (package.rs, SlowPackage). -/
structure SlowPackage where
  header : SlowPackageHeader
  payload : List Nat
deriving DecidableEq, Repr

/-- SlowPackage::pack (package.rs lines 373-400): type byte, packed
recipient id, packed sender id, hop count, the package id given as the
argument (little endian), the payload_size header field (little endian),
then the payload bytes. -/
def SlowPackage.pack (p : SlowPackage) (package_id : Nat) : List Nat :=
  [p.header.package_type] ++
  p.header.recipient_id.pack ++
  p.header.sender_id.pack ++
  [p.header.hop_count] ++
  le32 package_id ++
  le16 p.header.payload_size ++
  p.payload

/-- SlowPackage::unpack (package.rs lines 280-366), transcribed check by
check. The package_type byte is stored without validation; positions move
exactly as in the source and the final check requires the payload_size
field to equal the remaining byte count. -/
def SlowPackage.unpack (data : List Nat) : Option SlowPackage :=
  if data.length < 8 then none
  else
    let package_type := data.getD 0 0
    -- recipient id, read from position 1
    if data.length - 1 < 2 then none
    else
      match JunctionId.unpack (data.drop 1) with
      | none => none
      | some recipient_id =>
        let recipient_id_len := fromLe16 (data.getD 1 0) (data.getD 2 0)
        let pos1 := 1 + 2 + recipient_id_len
        -- sender id, read from pos1
        if data.length - pos1 < 2 then none
        else
          match JunctionId.unpack (data.drop pos1) with
          | none => none
          | some sender_id =>
            let sender_id_len := fromLe16 (data.getD pos1 0) (data.getD (pos1 + 1) 0)
            let pos2 := pos1 + 2 + sender_id_len
            -- hop count
            if pos2 ≥ data.length then none
            else
              let hop_count := data.getD pos2 0
              let pos3 := pos2 + 1
              if pos3 + 4 > data.length then none
              else
                let package_id := fromLe32 (data.getD pos3 0) (data.getD (pos3 + 1) 0)
                  (data.getD (pos3 + 2) 0) (data.getD (pos3 + 3) 0)
                let pos4 := pos3 + 4
                if pos4 + 2 > data.length then none
                else
                  let payload_size := fromLe16 (data.getD pos4 0) (data.getD (pos4 + 1) 0)
                  let pos5 := pos4 + 2
                  if pos5 + payload_size ≠ data.length then none
                  else
                    some { header := { package_type := package_type,
                                       recipient_id := recipient_id,
                                       sender_id := sender_id,
                                       hop_count := hop_count,
                                       package_id := package_id,
                                       payload_size := payload_size },
                           payload := data.drop pos5 }

/-- The 14-byte ping package of the codec example: type 1, recipient "R",
sender "S", hop 0, id 0, empty payload. -/
def pingRS : SlowPackage :=
  { header := { package_type := 1, recipient_id := ⟨[82]⟩, sender_id := ⟨[83]⟩,
                hop_count := 0, package_id := 0, payload_size := 0 },
    payload := [] }

/-- SlowPackage::increment_hops (package.rs lines 416-419): increments the
u8 hop counter (release-mode wrap at 256) and returns the new value. -/
def SlowPackage.increment_hops (p : SlowPackage) : Nat × SlowPackage :=
  let h := (p.header.hop_count + 1) % 256
  (h, { p with header := { p.header with hop_count := h } })

-- ===========================================================================
-- junction.rs : forward path
-- ===========================================================================

/-- Transmissions a forward step performs: drop the package, send it to the
single best-route address, or broadcast it to the listed addresses. -/
inductive Transmit where
  | drop
  | toAddr (addr : SocketAddr)
  | broadcast (dests : List SocketAddr)
deriving DecidableEq, Repr

/-- Addresses a Transmit actually sends the package to. -/
def Transmit.dests : Transmit → List SocketAddr
  | .drop => []
  | .toAddr a => [a]
  | .broadcast ds => ds

/-- SlowJunction::forward (junction.rs lines 305-314): increment the hop
count; if the result is at least 128, return without sending; otherwise
send to the best route for the recipient when one exists, and otherwise to
every known junction except the sender. -/
def SlowJunction.forward (route_table : RouteTable) (known_junctions : List SocketAddr)
    (package : SlowPackage) (sender_addr : SocketAddr) : Transmit × SlowPackage :=
  let h := (package.increment_hops).fst
  let package' := (package.increment_hops).snd
  if h ≥ 128 then (.drop, package')
  else
    match route_table.get_best_route package'.header.recipient_id with
    | some addr => (.toAddr addr, package')
    | none => (.broadcast (known_junctions.filter (fun a => a ≠ sender_addr)), package')

-- ===========================================================================
-- tcp/tcp_frame.rs : SlowTcpFrame
-- ===========================================================================

/-- Error kinds surfacing in the TCP frame code (std::io::ErrorKind). -/
inductive IoErrorKind where
  | invalidInput
  | invalidData
  | unexpectedEof
deriving DecidableEq, Repr

/-- Big-endian bytes of a u32 value (u32::to_be_bytes). -/
def be32 (n : Nat) : List Nat :=
  [n / 2 ^ 24 % 256, n / 2 ^ 16 % 256, n / 256 % 256, n % 256]

/-- Value of u32::from_be_bytes on a four-byte list. -/
def fromBe32 (l : List Nat) : Nat := l.foldl (fun acc b => acc * 256 + b % 256) 0

/-- MAX_FRAME_SIZE (tcp_frame.rs): 1 MiB. -/
def MAX_FRAME_SIZE : Nat := 1024 * 1024

/-- SlowTcpStream::read_exact on a byte-stream modelled as a list: fails
with UnexpectedEof when the stream is shorter than requested, otherwise
yields the bytes read and the remaining stream. -/
def readExact (n : Nat) (s : List Nat) : Except IoErrorKind (List Nat × List Nat) :=
  if s.length < n then .error .unexpectedEof else .ok (s.take n, s.drop n)

/-- SlowTcpFrame::send (tcp_frame.rs lines 23-46): result value paired with
the bytes written to the stream. Oversized data fails with InvalidInput
before anything is written; otherwise the length is written in big-endian
before and after the data (SlowTcpStream::write uses write_all). -/
def SlowTcpFrame.send (data : List Nat) : Except IoErrorKind Nat × List Nat :=
  if data.length > MAX_FRAME_SIZE then (.error .invalidInput, [])
  else (.ok data.length, be32 data.length ++ data ++ be32 data.length)

/-- SlowTcpFrame::receive (tcp_frame.rs lines 62-105) on a received byte
stream, given the length of the caller-supplied buffer: reads the u32
length, errors with InvalidInput if the buffer is smaller, reads that many
data bytes, reads the u32 suffix, errors with InvalidData on mismatch. -/
def SlowTcpFrame.receive (bufLen : Nat) (s : List Nat) : Except IoErrorKind Nat :=
  match readExact 4 s with
  | .error e => .error e
  | .ok (lenBytes, s1) =>
    let expected_len := fromBe32 lenBytes
    if bufLen < expected_len then .error .invalidInput
    else
      match readExact expected_len s1 with
      | .error e => .error e
      | .ok (_, s2) =>
        match readExact 4 s2 with
        | .error e => .error e
        | .ok (sufBytes, _) =>
          let suffix_len := fromBe32 sufBytes
          if expected_len ≠ suffix_len then .error .invalidData
          else .ok expected_len

-- ===========================================================================
-- Specification-side rendering of the tracker case analysis
-- ===========================================================================

/-- The case analysis claimed for PacketTracker::update, written with the
mathematical signed difference shift = id - highest (no integer-cast
wrapping). This is the specification-side definition used to compare the
implementation against the claimed behaviour. -/
def claimedUpdate (t : PacketTracker) (id : Nat) : UpdateResult × PacketTracker :=
  let shift : Int := (id : Int) - t.highest_packet_id
  if shift = 0 then (.Duplicate, t)
  else if shift < -63 then (.Old, t)
  else if shift < 0 then
    if t.packet_bitfield.testBit (-shift).toNat then (.Duplicate, t)
    else (.Success, { t with packet_bitfield := t.packet_bitfield ||| 2 ^ (-shift).toNat })
  else if shift > 63 then
    (.Success, { highest_packet_id := id, packet_bitfield := 1 })
  else
    (.Success, { highest_packet_id := id,
                 packet_bitfield := (t.packet_bitfield <<< shift.toNat) % 2 ^ 64 ||| 1 })

/-- The tracker state remembers id: a later update(id) answers Duplicate.
Either id is the current highest with bit 0 set, or id is within the
63-wide window below highest with its bit set. -/
def Seen (t : PacketTracker) (id : Nat) : Prop :=
  (id = t.highest_packet_id ∧ t.packet_bitfield.testBit 0 = true) ∨
  (id < t.highest_packet_id ∧ t.highest_packet_id ≤ id + 63 ∧
    t.packet_bitfield.testBit (t.highest_packet_id - id) = true)

-- ===========================================================================
-- Sanity examples
-- ===========================================================================

example : (runTrackerResults PacketTracker.new [5, 3, 3, 5, 64, 5, 100, 1]).fst =
    [.Success, .Success, .Duplicate, .Duplicate, .Success, .Duplicate, .Success, .Old] := by
  decide

example : PacketTracker.update PacketTracker.new 0 = (.Duplicate, PacketTracker.new) := by
  decide

example : JunctionId.unpack [1, 0, 82] = some ⟨[82]⟩ := by decide
example : JunctionId.unpack [0, 0] = some ⟨[]⟩ := by decide
example : JunctionId.unpack [1, 0, 0xFF] = none := by decide

example :
    ([132, 3, 101, 100, 33, 134, 133, 132].foldl
      (fun (acc : List Bool × RoutePackageInfo) i =>
        let r := acc.2.update i
        (acc.1 ++ [r.fst], r.snd)) ([], RoutePackageInfo.new)).fst =
      [true, false, true, false, false, true, true, false] := by
  decide

example :
    let t1 := (RouteTable.update_route .new ⟨[49]⟩ 1111 5 0 0).snd
    let t2 := (RouteTable.update_route t1 ⟨[49]⟩ 2222 3 0 0).snd
    RouteTable.get_best_route t2 ⟨[49]⟩ = some 2222 ∧
    RouteTable.get_best_route t2 ⟨[50]⟩ = none := by decide

example : (pingRS.pack 7).length = 14 := by decide
example : SlowPackage.unpack (pingRS.pack 7) =
    some { pingRS with header := { pingRS.header with package_id := 7 } } := by decide
example : SlowPackage.unpack [6, 1, 0, 82, 1, 0, 83, 0, 0, 0, 0, 0, 0, 0] =
    some { header := { package_type := 6, recipient_id := ⟨[82]⟩, sender_id := ⟨[83]⟩,
                       hop_count := 0, package_id := 0, payload_size := 0 },
           payload := [] } := by decide

example : SlowTcpFrame.send [9, 9] = (.ok 2, [0, 0, 0, 2, 9, 9, 0, 0, 0, 2]) := rfl
example : SlowTcpFrame.receive 2 [0, 0, 0, 2, 9, 9, 0, 0, 0, 2] = .ok 2 := rfl
example : SlowTcpFrame.receive 1 [0, 0, 0, 2, 9, 9, 0, 0, 0, 2] = .error .invalidInput := rfl
example : SlowTcpFrame.receive 2 [0, 0, 0, 2, 9, 9, 0, 0, 0, 3] = .error .invalidData := rfl

-- ===========================================================================
-- Helper lemmas
-- ===========================================================================

lemma and_two_pow_ne_zero (n i : Nat) : n &&& 2 ^ i ≠ 0 ↔ n.testBit i = true := by
  rw [Nat.and_two_pow]
  cases h : n.testBit i <;> simp [h, (Nat.two_pow_pos i).ne']

lemma wrapSubI64_eq_sub {a b : Nat} (ha : a < 2 ^ 64) (hb : b < 2 ^ 64)
    (h1 : -(2 ^ 63 : Int) ≤ (a : Int) - b) (h2 : (a : Int) - b < 2 ^ 63) :
    wrapSubI64 a b = (a : Int) - b := by
  simp only [wrapSubI64, Nat.mod_eq_of_lt ha, Nat.mod_eq_of_lt hb]
  split <;> omega

/-- Whenever the signed difference fits in an i64, PacketTracker::update
computes exactly the claimed case analysis. -/
lemma update_eq_claimedUpdate (t : PacketTracker) (id : Nat)
    (hh : t.highest_packet_id < 2 ^ 64) (hid : id < 2 ^ 64)
    (h1 : -(2 ^ 63 : Int) ≤ (id : Int) - t.highest_packet_id)
    (h2 : (id : Int) - t.highest_packet_id < 2 ^ 63) :
    t.update id = claimedUpdate t id := by
  unfold PacketTracker.update claimedUpdate
  simp only [Nat.mod_eq_of_lt hid, wrapSubI64_eq_sub hid hh h1 h2]
  have hcond : ∀ k : Nat, (t.packet_bitfield &&& 2 ^ k ≠ 0) = (t.packet_bitfield.testBit k = true) :=
    fun k => propext (and_two_pow_ne_zero _ k)
  simp only [hcond]

-- ===========================================================================
-- Claim theorems: concrete evaluations
-- ===========================================================================

/-- C10. A freshly created PacketTracker has highest_packet_id 0 and an
empty bitfield, and update(0) on it returns Duplicate without any state
change, although no packet was ever observed; the package-level window
RoutePackageInfo rejects a first package id 0 in the same way. -/
theorem tracker_fresh_update_zero :
    PacketTracker.new = { highest_packet_id := 0, packet_bitfield := 0 } ∧
    PacketTracker.update PacketTracker.new 0 = (.Duplicate, PacketTracker.new) ∧
    RoutePackageInfo.update RoutePackageInfo.new 0 = (false, RoutePackageInfo.new) := by
  decide

/-- C9 counterexample. JunctionId::unpack accepts an encoding whose
two-byte length field is 0 and produces the empty identifier, so decoded
junction ids are not always non-empty as the claim states. -/
theorem junction_id_unpack_empty_cex :
    JunctionId.unpack [0, 0] = some ⟨[]⟩ := by decide

/-- C9 amended. JunctionId::unpack does not enforce non-emptiness: every
input starting with a zero length field decodes to the empty identifier. -/
theorem junction_id_unpack_zero_len (rest : List Nat) :
    JunctionId.unpack (0 :: 0 :: rest) = some ⟨[]⟩ := by
  unfold JunctionId.unpack
  have h1 : ¬ ((0 :: 0 :: rest).length < 2) := by simp
  have h2 : fromLe16 ((0 :: 0 :: rest).getD 0 0) ((0 :: 0 :: rest).getD 1 0) = 0 := by
    simp [fromLe16]
  simp only [h2, if_neg h1, Nat.add_zero, List.take_zero]
  rfl

/-- C1. Route::update_route and RouteTable::update_route admit the package
id into the destination window but discard the boolean admit result and
return a u32 instead (the pre-call greatest package id): on a fresh table,
updating with package id 5 is admitted by the window (true), the resulting
table carries exactly the updated window state, yet update_route returns
the number 0. The receive path in junction.rs declares its wrapper
update_route_table with return type bool and branches on it, which this
u32 return cannot satisfy. -/
theorem route_update_route_discards_admit :
    (RouteTable.update_route .new ⟨[49]⟩ 9 1 0 5).fst = 0 ∧
    (RoutePackageInfo.update .new 5).fst = true ∧
    ((RouteTable.update_route .new ⟨[49]⟩ 9 1 0 5).snd.junctions.map
      (fun p => p.2.package_info)) = [(RoutePackageInfo.update .new 5).snd] := by
  decide

/-- C2 counterexample. A package arriving with hop_count 255 is not
dropped: the u8 increment wraps to 0, the threshold test passes, and the
package is transmitted (here broadcast to the known junction 7), although
the claim states that no package arriving with hop count at least 128 (up
to 255) is ever forwarded. -/
theorem forward_hop255_transmits_cex :
    (SlowJunction.forward .new [7]
        { pingRS with header := { pingRS.header with hop_count := 255 } } 3).fst =
      .broadcast [7] ∧
    (SlowJunction.forward .new [7]
        { pingRS with header := { pingRS.header with hop_count := 255 } } 3).snd.header.hop_count
      = 0 := by
  decide

/-- C3 counterexample. SlowPackage::unpack does not validate the
package_type byte: a 14-byte input whose first byte is 6 (outside 0..5)
unpacks successfully, although the claim states unpack returns None for
every such input. -/
theorem unpack_accepts_type_byte_6_cex :
    SlowPackage.unpack [6, 1, 0, 82, 1, 0, 83, 0, 0, 0, 0, 0, 0, 0] =
      some { header := { package_type := 6, recipient_id := ⟨[82]⟩, sender_id := ⟨[83]⟩,
                         hop_count := 0, package_id := 0, payload_size := 0 },
             payload := [] } := by
  decide

/-- C5 counterexample. PacketTracker::update computes shift through i64
casts, so for id 2 to the 63rd power on a fresh tracker the cast is
negative and the call returns Old with no state change, while the claimed
case analysis on the mathematical difference (shift greater than 63)
demands Success with highest set to the id. -/
theorem tracker_update_cast_wrap_cex :
    PacketTracker.update PacketTracker.new (2 ^ 63) = (.Old, PacketTracker.new) ∧
    claimedUpdate PacketTracker.new (2 ^ 63) =
      (.Success, { highest_packet_id := 2 ^ 63, packet_bitfield := 1 }) ∧
    PacketTracker.update PacketTracker.new (2 ^ 63) ≠
      claimedUpdate PacketTracker.new (2 ^ 63) := by
  decide

/-- C5 amended. Whenever the signed difference id - highest fits in an i64
(in particular for all ids and states arising from ids below 2 to the 63),
PacketTracker::update implements exactly the claimed case analysis on
shift = id - highest, and the concrete call sequence 5, 3, 3, 5, 64, 5,
100, 1 on a fresh tracker returns Success, Success, Duplicate, Duplicate,
Success, Duplicate, Success, Old in that order. Outside the i64 range the
cast wraps, see the counterexample. -/
theorem tracker_update_case_analysis (t : PacketTracker) (id : Nat)
    (hh : t.highest_packet_id < 2 ^ 64) (hid : id < 2 ^ 64)
    (h1 : -(2 ^ 63 : Int) ≤ (id : Int) - t.highest_packet_id)
    (h2 : (id : Int) - t.highest_packet_id < 2 ^ 63) :
    t.update id = claimedUpdate t id ∧
    (runTrackerResults PacketTracker.new [5, 3, 3, 5, 64, 5, 100, 1]).fst =
      [.Success, .Success, .Duplicate, .Duplicate, .Success, .Duplicate, .Success, .Old] :=
  ⟨update_eq_claimedUpdate t id hh hid h1 h2, by decide⟩

/-- Witness for C5: the amended case analysis applied at a fresh tracker
and id 5. -/
theorem tracker_update_case_analysis_witness :
    (PacketTracker.new.highest_packet_id < 2 ^ 64 ∧ (5 : Nat) < 2 ^ 64 ∧
      -(2 ^ 63 : Int) ≤ (5 : Int) - PacketTracker.new.highest_packet_id ∧
      (5 : Int) - PacketTracker.new.highest_packet_id < 2 ^ 63) ∧
    (PacketTracker.new.update 5 = claimedUpdate PacketTracker.new 5 ∧
      (runTrackerResults PacketTracker.new [5, 3, 3, 5, 64, 5, 100, 1]).fst =
        [.Success, .Success, .Duplicate, .Duplicate, .Success, .Duplicate, .Success, .Old]) :=
  ⟨⟨by decide, by decide, by decide, by decide⟩,
    tracker_update_case_analysis PacketTracker.new 5 (by decide) (by decide) (by decide)
      (by decide)⟩

/-- C2 amended. SlowJunction::forward increments the hop count exactly
once (as a u8, wrapping at 256) and drops the package exactly when the
incremented value is at least 128; hence every package arriving with hop
count in 127..254 is dropped without transmitting, while a package
arriving with hop count 255 wraps to 0 and is not dropped by this check
(see the counterexample). -/
theorem forward_hop_increment_drop (tbl : RouteTable) (known : List SocketAddr)
    (p : SlowPackage) (sender : SocketAddr) (hhop : p.header.hop_count < 256) :
    ((SlowJunction.forward tbl known p sender).snd.header.hop_count =
        (p.header.hop_count + 1) % 256) ∧
    ((SlowJunction.forward tbl known p sender).fst = .drop ↔
        128 ≤ (p.header.hop_count + 1) % 256) ∧
    (127 ≤ p.header.hop_count → p.header.hop_count ≤ 254 →
        (SlowJunction.forward tbl known p sender).fst = .drop) := by
  unfold SlowJunction.forward SlowPackage.increment_hops
  dsimp only
  set h1 := (p.header.hop_count + 1) % 256 with hh1
  by_cases hd : 128 ≤ h1
  · rw [if_pos hd]
    exact ⟨rfl, ⟨fun _ => hd, fun _ => rfl⟩, fun _ _ => rfl⟩
  · rw [if_neg hd]
    cases hbest : RouteTable.get_best_route tbl p.header.recipient_id with
    | none =>
      exact ⟨rfl, ⟨fun h => (nomatch h), fun h => absurd h hd⟩,
        fun ha hb => absurd (show 128 ≤ h1 by omega) hd⟩
    | some a =>
      exact ⟨rfl, ⟨fun h => (nomatch h), fun h => absurd h hd⟩,
        fun ha hb => absurd (show 128 ≤ h1 by omega) hd⟩

/-- Witness for C2 amended: the forward contract applied to a package with
hop count 130 arriving at a junction that knows address 7. -/
theorem forward_hop_increment_drop_witness :
    ((pingRS.header.hop_count < 256) ∧
      ({ pingRS with header := { pingRS.header with hop_count := 130 } } :
        SlowPackage).header.hop_count < 256) ∧
    ((SlowJunction.forward .new [7] pingRS 3).snd.header.hop_count = (0 + 1) % 256 ∧
      ((SlowJunction.forward .new [7]
          { pingRS with header := { pingRS.header with hop_count := 130 } } 3).fst = .drop ↔
        128 ≤ (130 + 1) % 256)) :=
  ⟨⟨by decide, by decide⟩,
    (forward_hop_increment_drop .new [7] pingRS 3 (by decide)).1,
    ((forward_hop_increment_drop .new [7]
        { pingRS with header := { pingRS.header with hop_count := 130 } } 3 (by decide)).2).1⟩

/-- C6 counterexample. From a fresh tracker, update(2 to the 64th minus
10) returns Success; the intervening update(64) also returns Success and
64 does not exceed that id plus 63, so the claim requires the repeated
update of the first id to return Duplicate; the implementation returns Old
instead, because the intervening admit cleared the window. -/
theorem tracker_duplicate_window_cex :
    (PacketTracker.update PacketTracker.new (2 ^ 64 - 10)).fst = .Success ∧
    (((PacketTracker.update PacketTracker.new (2 ^ 64 - 10)).snd.update 64).fst = .Success ∧
     ¬ ((2 ^ 64 - 10 : Nat) + 63 < 64)) ∧
    ((((PacketTracker.update PacketTracker.new (2 ^ 64 - 10)).snd.update 64).snd.update
        (2 ^ 64 - 10)).fst = .Old ∧
     (((PacketTracker.update PacketTracker.new (2 ^ 64 - 10)).snd.update 64).snd.update
        (2 ^ 64 - 10)).fst ≠ .Duplicate) := by
  decide

-- ===========================================================================
-- C8 : best-route selection
-- ===========================================================================

lemma bestFold_spec (l : List (SocketAddr × RouteInfo)) :
    ∀ acc : Option (SocketAddr × RouteInfo),
      (l.foldl bestFold acc = none ↔ (acc = none ∧ l = [])) ∧
      (∀ p, l.foldl bestFold acc = some p →
        (p ∈ l ∨ acc = some p) ∧ (∀ q ∈ l, p.2.hops ≤ q.2.hops) ∧
        (∀ q, acc = some q → p.2.hops ≤ q.2.hops)) := by
  induction l with
  | nil =>
    intro acc
    refine ⟨by simp, ?_⟩
    intro p hp
    simp only [List.foldl_nil] at hp
    refine ⟨Or.inr hp, by simp, ?_⟩
    intro q hq
    rw [hp] at hq
    injection hq with h
    rw [h]
  | cons a l ih =>
    intro acc
    have hfold : (a :: l).foldl bestFold acc = l.foldl bestFold (bestFold acc a) := rfl
    constructor
    · rw [hfold, (ih (bestFold acc a)).1]
      constructor
      · rintro ⟨h1, -⟩
        cases acc with
        | none => simp [bestFold] at h1
        | some b =>
          simp only [bestFold] at h1
          split at h1 <;> simp_all
      · rintro ⟨-, h⟩
        cases h
    · intro p hp
      rw [hfold] at hp
      obtain ⟨hmem, hbound, hacc⟩ := (ih (bestFold acc a)).2 p hp
      cases acc with
      | none =>
        simp only [bestFold] at hmem hacc
        refine ⟨?_, ?_, ?_⟩
        · rcases hmem with h | h
          · exact Or.inl (List.mem_cons_of_mem a h)
          · cases h; exact Or.inl (List.mem_cons_self _ _)
        · intro q hq
          rcases List.mem_cons.mp hq with rfl | hq
          · exact hacc q rfl
          · exact hbound q hq
        · intro q hq
          cases hq
      | some b =>
        simp only [bestFold] at hmem hacc
        by_cases hab : a.2.hops < b.2.hops
        · rw [if_pos hab] at hmem hacc
          refine ⟨?_, ?_, ?_⟩
          · rcases hmem with h | h
            · exact Or.inl (List.mem_cons_of_mem a h)
            · cases h; exact Or.inl (List.mem_cons_self _ _)
          · intro q hq
            rcases List.mem_cons.mp hq with rfl | hq
            · exact hacc q rfl
            · exact hbound q hq
          · intro q hq
            cases hq
            exact le_trans (hacc a rfl) (le_of_lt hab)
        · rw [if_neg hab] at hmem hacc
          refine ⟨?_, ?_, ?_⟩
          · rcases hmem with h | h
            · exact Or.inl (List.mem_cons_of_mem a h)
            · exact Or.inr h
          · intro q hq
            rcases List.mem_cons.mp hq with rfl | hq
            · exact le_trans (hacc b rfl) (Nat.le_of_not_lt hab)
            · exact hbound q hq
          · intro q hq
            cases hq
            exact hacc b rfl

lemma get_best_route_spec (r : Route) :
    (r.get_best_route = none ↔ r.routes = []) ∧
    (∀ a, r.get_best_route = some a →
      ∃ info, (a, info) ∈ r.routes ∧ ∀ q ∈ r.routes, info.hops ≤ q.2.hops) := by
  unfold Route.get_best_route
  constructor
  · rw [Option.map_eq_none', (bestFold_spec r.routes none).1]
    simp
  · intro a ha
    obtain ⟨p, hp, hpa⟩ := Option.map_eq_some'.mp ha
    obtain ⟨hmem, hbound, -⟩ := (bestFold_spec r.routes none).2 p hp
    rcases hmem with hmem | hmem
    · refine ⟨p.2, ?_, hbound⟩
      rw [← hpa, Prod.mk.eta]
      exact hmem
    · cases hmem

/-- C8. RouteTable::get_best_route returns None exactly when no route is
recorded for the destination, and otherwise returns an address one of
whose recorded entries has hop count equal to the minimum of the recorded
hop counts (it is a member of the route set and a lower bound for it). -/
theorem get_best_route_min_hops (t : RouteTable) (d : JunctionId) :
    (t.get_best_route d = none ↔ t.routesOf d = []) ∧
    (∀ a, t.get_best_route d = some a →
      ∃ info, (a, info) ∈ t.routesOf d ∧ ∀ q ∈ t.routesOf d, info.hops ≤ q.2.hops) := by
  unfold RouteTable.get_best_route RouteTable.routesOf
  cases h : lookupJunction t.junctions d with
  | none => simp
  | some r =>
    simp only [Option.bind_some, Option.map_some', Option.getD_some]
    exact get_best_route_spec r

-- ===========================================================================
-- C7 : TCP frame send and receive
-- ===========================================================================

lemma be32_length (n : Nat) : (be32 n).length = 4 := by simp [be32]

lemma fromBe32_be32 {n : Nat} (h : n < 2 ^ 32) : fromBe32 (be32 n) = n := by
  simp only [fromBe32, be32, List.foldl_cons, List.foldl_nil]
  omega

lemma readExact_be32 (n : Nat) (rest : List Nat) :
    readExact 4 (be32 n ++ rest) = .ok (be32 n, rest) := by
  unfold readExact
  rw [if_neg (by simp [be32_length]), List.take_left' (be32_length n),
    List.drop_left' (be32_length n)]

lemma readExact_exact (l rest : List Nat) :
    readExact l.length (l ++ rest) = .ok (l, rest) := by
  unfold readExact
  rw [if_neg (by simp), List.take_left, List.drop_left]

lemma receive_buffer_small {bufLen n : Nat} (rest : List Nat)
    (hn : n < 2 ^ 32) (hb : bufLen < n) :
    SlowTcpFrame.receive bufLen (be32 n ++ rest) = .error .invalidInput := by
  unfold SlowTcpFrame.receive
  rw [readExact_be32]
  simp only [fromBe32_be32 hn]
  rw [if_pos hb]

lemma receive_suffix_mismatch {bufLen n m : Nat} (payload rest : List Nat)
    (hn : n < 2 ^ 32) (hm : m < 2 ^ 32) (hpl : payload.length = n) (hb : n ≤ bufLen)
    (hnm : n ≠ m) :
    SlowTcpFrame.receive bufLen (be32 n ++ (payload ++ (be32 m ++ rest))) =
      .error .invalidData := by
  unfold SlowTcpFrame.receive
  rw [readExact_be32]
  simp only [fromBe32_be32 hn]
  rw [if_neg (by omega)]
  rw [show readExact n (payload ++ (be32 m ++ rest)) = .ok (payload, be32 m ++ rest) from by
    rw [← hpl]; exact readExact_exact payload (be32 m ++ rest)]
  dsimp only
  rw [readExact_be32]
  simp only [fromBe32_be32 hm]
  rw [if_pos hnm]

/-- C7. SlowTcpFrame::send accepts data up to 1 048 576 bytes, writing the
frame with big-endian length fields before and after the data, and fails
with InvalidInput writing nothing for larger data; SlowTcpFrame::receive
fails with InvalidInput when the caller buffer is smaller than the length
field read, and fails with InvalidData when the trailing length field
differs from the leading one. -/
theorem tcp_frame_send_receive (d1 d2 : List Nat) (n m buf1 buf2 : Nat)
    (payload rest1 rest2 : List Nat)
    (h1 : d1.length ≤ 1048576) (h2 : d2.length ≥ 1048577)
    (hn : n < 2 ^ 32) (hm : m < 2 ^ 32) (hb1 : buf1 < n)
    (hpl : payload.length = n) (hb2 : n ≤ buf2) (hnm : n ≠ m) :
    SlowTcpFrame.send d1 = (.ok d1.length, be32 d1.length ++ d1 ++ be32 d1.length) ∧
    SlowTcpFrame.send d2 = (.error .invalidInput, []) ∧
    SlowTcpFrame.receive buf1 (be32 n ++ rest1) = .error .invalidInput ∧
    SlowTcpFrame.receive buf2 (be32 n ++ payload ++ be32 m ++ rest2) = .error .invalidData := by
  refine ⟨?_, ?_, receive_buffer_small rest1 hn hb1, ?_⟩
  · unfold SlowTcpFrame.send
    rw [if_neg (by simp [MAX_FRAME_SIZE]; omega), List.append_assoc]
  · unfold SlowTcpFrame.send
    rw [if_pos (by simp [MAX_FRAME_SIZE]; omega)]
  · rw [List.append_assoc, List.append_assoc]
    exact receive_suffix_mismatch payload rest2 hn hm hpl hb2 hnm

/-- Witness for C7: the frame contract applied at a two-byte payload and a
specific oversized buffer length. -/
theorem tcp_frame_send_receive_witness :
    (([9, 9] : List Nat).length ≤ 1048576 ∧
      (List.replicate 1048577 (0 : Nat)).length ≥ 1048577 ∧
      (2 : Nat) < 2 ^ 32 ∧ (3 : Nat) < 2 ^ 32 ∧ (1 : Nat) < 2 ∧
      ([9, 9] : List Nat).length = 2 ∧ (2 : Nat) ≤ 2 ∧ (2 : Nat) ≠ 3) ∧
    (SlowTcpFrame.send [9, 9] =
        (.ok ([9, 9] : List Nat).length,
          be32 ([9, 9] : List Nat).length ++ [9, 9] ++ be32 ([9, 9] : List Nat).length) ∧
      SlowTcpFrame.send (List.replicate 1048577 0) = (.error .invalidInput, []) ∧
      SlowTcpFrame.receive 1 (be32 2 ++ [7, 7]) = .error .invalidInput ∧
      SlowTcpFrame.receive 2 (be32 2 ++ [9, 9] ++ be32 3 ++ []) = .error .invalidData) :=
  ⟨⟨by decide, by rw [List.length_replicate], by decide, by decide, by decide, by decide,
      by decide, by decide⟩,
    tcp_frame_send_receive [9, 9] (List.replicate 1048577 0) 2 3 1 2 [9, 9] [7, 7] []
      (by decide) (by rw [List.length_replicate]) (by decide) (by decide) (by decide)
      (by decide) (by decide) (by decide)⟩

-- ===========================================================================
-- Codec lemmas (C3, C4)
-- ===========================================================================

lemma le16_cons (n : Nat) (l : List Nat) : le16 n ++ l = n % 256 :: n / 256 % 256 :: l := rfl

lemma le16_length (n : Nat) : (le16 n).length = 2 := rfl

lemma fromLe16_le16 {n : Nat} (h : n < 2 ^ 16) :
    fromLe16 (n % 256) (n / 256 % 256) = n := by
  simp only [fromLe16]
  omega

lemma junction_id_unpack_append (id rest : List Nat) (hv : validUtf8 id = true)
    (hl : id.length < 2 ^ 16) :
    JunctionId.unpack (le16 id.length ++ (id ++ rest)) = some ⟨id⟩ := by
  unfold JunctionId.unpack
  rw [le16_cons]
  have h1 : ¬ ((id.length % 256 :: id.length / 256 % 256 :: (id ++ rest)).length < 2) := by
    simp
  have h2 : fromLe16 ((id.length % 256 :: id.length / 256 % 256 :: (id ++ rest)).getD 0 0)
      ((id.length % 256 :: id.length / 256 % 256 :: (id ++ rest)).getD 1 0) = id.length := by
    simpa using fromLe16_le16 hl
  simp only [h2, if_neg h1]
  have h3 : ¬ ((id.length % 256 :: id.length / 256 % 256 :: (id ++ rest)).length <
      2 + id.length) := by
    simp only [List.length_cons, List.length_append, not_lt]
    omega
  rw [if_neg h3]
  have h4 : ((id.length % 256 :: id.length / 256 % 256 :: (id ++ rest)).drop 2).take id.length
      = id := by
    simp [List.take_left]
  rw [h4, if_pos hv]

lemma junction_id_unpack_short (L : Nat) (X : List Nat) (hL : L < 2 ^ 16)
    (hX : X.length < L) :
    JunctionId.unpack (le16 L ++ X) = none := by
  unfold JunctionId.unpack
  rw [le16_cons]
  have h1 : ¬ ((L % 256 :: L / 256 % 256 :: X).length < 2) := by simp
  have h2 : fromLe16 ((L % 256 :: L / 256 % 256 :: X).getD 0 0)
      ((L % 256 :: L / 256 % 256 :: X).getD 1 0) = L := by
    simpa using fromLe16_le16 hL
  simp only [h2, if_neg h1]
  rw [if_pos (by simp; omega)]

lemma junction_id_unpack_len2 (data : List Nat) (h : data.length < 2) :
    JunctionId.unpack data = none := by
  unfold JunctionId.unpack
  rw [if_pos h]

/-- Any input shorter than 8 bytes is rejected by SlowPackage::unpack. -/
lemma unpack_small (data : List Nat) (h : data.length < 8) :
    SlowPackage.unpack data = none := by
  unfold SlowPackage.unpack
  rw [if_pos h]

/-- When the recipient JunctionId fails to decode, unpack fails. -/
lemma unpack_rid_none (ty : Nat) (D : List Nat) (h : JunctionId.unpack D = none) :
    SlowPackage.unpack (ty :: D) = none := by
  unfold SlowPackage.unpack
  by_cases h8 : (ty :: D).length < 8
  · rw [if_pos h8]
  · rw [if_neg h8]
    by_cases h2 : (ty :: D).length - 1 < 2
    · rw [if_pos h2]
    · rw [if_neg h2]
      have hdrop : (ty :: D).drop 1 = D := rfl
      rw [hdrop, h]

lemma unpack_sid_none (ty : Nat) (rid Y : List Nat) (hrv : validUtf8 rid = true)
    (hrl : rid.length < 2 ^ 16) (h : JunctionId.unpack Y = none) :
    SlowPackage.unpack (ty :: (le16 rid.length ++ (rid ++ Y))) = none := by
  unfold SlowPackage.unpack
  by_cases h8 : (ty :: (le16 rid.length ++ (rid ++ Y))).length < 8
  · rw [if_pos h8]
  · rw [if_neg h8]
    rw [if_neg (by simp [le16_cons])]
    have hdrop : (ty :: (le16 rid.length ++ (rid ++ Y))).drop 1 =
        le16 rid.length ++ (rid ++ Y) := rfl
    rw [hdrop, junction_id_unpack_append rid Y hrv hrl]
    have hg : fromLe16 ((ty :: (le16 rid.length ++ (rid ++ Y))).getD 1 0)
        ((ty :: (le16 rid.length ++ (rid ++ Y))).getD 2 0) = rid.length := by
      rw [le16_cons]
      simpa using fromLe16_le16 hrl
    rw [hg]
    dsimp only
    by_cases hY2 : (ty :: (le16 rid.length ++ (rid ++ Y))).length - (1 + 2 + rid.length) < 2
    · rw [if_pos hY2]
    · rw [if_neg hY2]
      have hdrop2 : (ty :: (le16 rid.length ++ (rid ++ Y))).drop (1 + 2 + rid.length) = Y := by
        rw [le16_cons]
        have : (1 : Nat) + 2 + rid.length = rid.length + 3 := by omega
        rw [this]
        show (rid ++ Y).drop rid.length = Y
        exact List.drop_left rid Y
      rw [hdrop2, h]

lemma getD_append_skip (A B : List Nat) (n : Nat) :
    (A ++ B).getD (A.length + n) 0 = B.getD n 0 := by
  rw [List.getD_append_right A B 0 (A.length + n) (Nat.le_add_right _ _),
    Nat.add_sub_cancel_left]

lemma drop_append_skip (A B : List Nat) (n : Nat) :
    (A ++ B).drop (A.length + n) = B.drop n := by
  rw [← List.drop_drop, List.drop_left]

lemma getD_append_self (A B : List Nat) :
    (A ++ B).getD A.length 0 = B.getD 0 0 := by
  rw [List.getD_append_right A B 0 A.length (Nat.le_refl _), Nat.sub_self]

/-- Evaluation of SlowPackage::unpack on any input of the canonical shape:
a type byte, a packed recipient id, a packed sender id, then a tail T
holding hop count, package id, payload size and payload. -/
lemma unpack_shape (D : List Nat) (ty : Nat) (rid sid T : List Nat)
    (hD : D = ty :: (le16 rid.length ++ (rid ++ (le16 sid.length ++ (sid ++ T)))))
    (hrv : validUtf8 rid = true) (hrl : rid.length < 2 ^ 16)
    (hsv : validUtf8 sid = true) (hsl : sid.length < 2 ^ 16) :
    SlowPackage.unpack D =
      if D.length < 8 then none
      else if T.length < 7 then none
      else if 7 + fromLe16 (T.getD 5 0) (T.getD 6 0) ≠ T.length then none
      else some { header := { package_type := ty, recipient_id := ⟨rid⟩, sender_id := ⟨sid⟩,
                              hop_count := T.getD 0 0,
                              package_id := fromLe32 (T.getD 1 0) (T.getD 2 0) (T.getD 3 0)
                                (T.getD 4 0),
                              payload_size := fromLe16 (T.getD 5 0) (T.getD 6 0) },
                  payload := T.drop 7 } := by
  have hlen : D.length = 5 + rid.length + sid.length + T.length := by
    rw [hD, le16_cons, le16_cons]
    simp only [List.length_cons, List.length_append]
    omega
  by_cases h8 : D.length < 8
  · rw [unpack_small D h8, if_pos h8]
  · rw [if_neg h8]
    unfold SlowPackage.unpack
    rw [if_neg h8, if_neg (show ¬ D.length - 1 < 2 by omega)]
    have hdrop1 : D.drop 1 = le16 rid.length ++ (rid ++ (le16 sid.length ++ (sid ++ T))) := by
      rw [hD]
      rfl
    rw [hdrop1, junction_id_unpack_append rid _ hrv hrl]
    dsimp only
    have hfrom1 : fromLe16 (D.getD 1 0) (D.getD 2 0) = rid.length := by
      rw [hD, le16_cons]
      simpa using fromLe16_le16 hrl
    rw [hfrom1]
    rw [if_neg (show ¬ D.length - (1 + 2 + rid.length) < 2 by omega)]
    have hdropS : D.drop (1 + 2 + rid.length) = le16 sid.length ++ (sid ++ T) := by
      rw [hD, le16_cons, (by omega : 1 + 2 + rid.length = rid.length + 1 + 1 + 1)]
      simp only [List.drop_succ_cons]
      exact List.drop_left rid _
    rw [hdropS, junction_id_unpack_append sid _ hsv hsl]
    dsimp only
    have hgS0 : D.getD (1 + 2 + rid.length) 0 = sid.length % 256 := by
      rw [hD, le16_cons, le16_cons,
        (by omega : 1 + 2 + rid.length = rid.length + 1 + 1 + 1)]
      simp only [List.getD_cons_succ]
      rw [getD_append_self]
      rfl
    have hgS1 : D.getD (1 + 2 + rid.length + 1) 0 = sid.length / 256 % 256 := by
      rw [hD, le16_cons, le16_cons,
        (by omega : 1 + 2 + rid.length + 1 = rid.length + 1 + 1 + 1 + 1)]
      simp only [List.getD_cons_succ]
      rw [getD_append_skip]
      rfl
    have hfrom2 : fromLe16 (D.getD (1 + 2 + rid.length) 0) (D.getD (1 + 2 + rid.length + 1) 0)
        = sid.length := by
      rw [hgS0, hgS1]
      exact fromLe16_le16 hsl
    rw [hfrom2]
    have hgT : ∀ n, D.getD (1 + 2 + rid.length + 2 + sid.length + n) 0 = T.getD n 0 := by
      intro n
      rw [hD, le16_cons, le16_cons,
        (by omega : 1 + 2 + rid.length + 2 + sid.length + n =
          rid.length + (sid.length + n + 1 + 1) + 1 + 1 + 1)]
      simp only [List.getD_cons_succ]
      rw [getD_append_skip]
      simp only [List.getD_cons_succ]
      rw [getD_append_skip]
    by_cases hT7 : T.length < 7
    · rw [if_pos hT7]
      by_cases hc0 : 1 + 2 + rid.length + 2 + sid.length ≥ D.length
      · rw [if_pos hc0]
      · rw [if_neg hc0]
        by_cases hc1 : 1 + 2 + rid.length + 2 + sid.length + 1 + 4 > D.length
        · rw [if_pos hc1]
        · rw [if_neg hc1]
          rw [if_pos (show 1 + 2 + rid.length + 2 + sid.length + 1 + 4 + 2 > D.length by omega)]
    · rw [if_neg hT7]
      rw [if_neg (show ¬ 1 + 2 + rid.length + 2 + sid.length ≥ D.length by omega)]
      rw [if_neg (show ¬ 1 + 2 + rid.length + 2 + sid.length + 1 + 4 > D.length by omega)]
      rw [if_neg (show ¬ 1 + 2 + rid.length + 2 + sid.length + 1 + 4 + 2 > D.length by omega)]
      have hr0 : D.getD (1 + 2 + rid.length + 2 + sid.length) 0 = T.getD 0 0 := by
        have h := hgT 0
        rwa [Nat.add_zero] at h
      have hr1 : D.getD (1 + 2 + rid.length + 2 + sid.length + 1) 0 = T.getD 1 0 := hgT 1
      have hr2 : D.getD (1 + 2 + rid.length + 2 + sid.length + 1 + 1) 0 = T.getD 2 0 := by
        have h := hgT 2
        rwa [(by omega : 1 + 2 + rid.length + 2 + sid.length + 2 =
          1 + 2 + rid.length + 2 + sid.length + 1 + 1)] at h
      have hr3 : D.getD (1 + 2 + rid.length + 2 + sid.length + 1 + 2) 0 = T.getD 3 0 := by
        have h := hgT 3
        rwa [(by omega : 1 + 2 + rid.length + 2 + sid.length + 3 =
          1 + 2 + rid.length + 2 + sid.length + 1 + 2)] at h
      have hr4 : D.getD (1 + 2 + rid.length + 2 + sid.length + 1 + 3) 0 = T.getD 4 0 := by
        have h := hgT 4
        rwa [(by omega : 1 + 2 + rid.length + 2 + sid.length + 4 =
          1 + 2 + rid.length + 2 + sid.length + 1 + 3)] at h
      have hr5 : D.getD (1 + 2 + rid.length + 2 + sid.length + 1 + 4) 0 = T.getD 5 0 := by
        have h := hgT 5
        rwa [(by omega : 1 + 2 + rid.length + 2 + sid.length + 5 =
          1 + 2 + rid.length + 2 + sid.length + 1 + 4)] at h
      have hr6 : D.getD (1 + 2 + rid.length + 2 + sid.length + 1 + 4 + 1) 0 = T.getD 6 0 := by
        have h := hgT 6
        rwa [(by omega : 1 + 2 + rid.length + 2 + sid.length + 6 =
          1 + 2 + rid.length + 2 + sid.length + 1 + 4 + 1)] at h
      rw [hr0, hr1, hr2, hr3, hr4, hr5, hr6]
      have hdT : D.drop (1 + 2 + rid.length + 2 + sid.length + 1 + 4 + 2) = T.drop 7 := by
        rw [hD, le16_cons, le16_cons,
          (by omega : 1 + 2 + rid.length + 2 + sid.length + 1 + 4 + 2 =
            rid.length + (sid.length + 7 + 1 + 1) + 1 + 1 + 1)]
        simp only [List.drop_succ_cons]
        rw [drop_append_skip]
        simp only [List.drop_succ_cons]
        rw [drop_append_skip]
      rw [hdT]
      have hty : D.getD 0 0 = ty := by rw [hD]; rfl
      rw [hty]
      by_cases hsz : 7 + fromLe16 (T.getD 5 0) (T.getD 6 0) ≠ T.length
      · rw [if_pos hsz,
          if_pos (show 1 + 2 + rid.length + 2 + sid.length + 1 + 4 + 2 +
            fromLe16 (T.getD 5 0) (T.getD 6 0) ≠ D.length by omega)]
      · rw [if_neg hsz,
          if_neg (show ¬ (1 + 2 + rid.length + 2 + sid.length + 1 + 4 + 2 +
            fromLe16 (T.getD 5 0) (T.getD 6 0) ≠ D.length) by omega)]

lemma le32_cons (n : Nat) (l : List Nat) :
    le32 n ++ l = n % 256 :: n / 256 % 256 :: n / 2 ^ 16 % 256 :: n / 2 ^ 24 % 256 :: l := rfl

lemma fromLe32_le32 {n : Nat} (h : n < 2 ^ 32) :
    fromLe32 (n % 256) (n / 256 % 256) (n / 2 ^ 16 % 256) (n / 2 ^ 24 % 256) = n := by
  simp only [fromLe32]
  omega

lemma getD_take_of_lt (l : List Nat) {n m : Nat} (h : m < n) :
    (l.take n).getD m 0 = l.getD m 0 := by
  simp only [List.getD_eq_getD_get?, List.get?_eq_getElem?, List.getElem?_take_of_lt h]

/-- SlowPackage::pack produces exactly the canonical byte shape. -/
lemma pack_eq_shape (p : SlowPackage) (pid : Nat) :
    p.pack pid = p.header.package_type ::
      (le16 p.header.recipient_id.id.length ++ (p.header.recipient_id.id ++
        (le16 p.header.sender_id.id.length ++ (p.header.sender_id.id ++
          (p.header.hop_count :: (le32 pid ++ (le16 p.header.payload_size ++ p.payload))))))) := by
  simp [SlowPackage.pack, JunctionId.pack, List.append_assoc]

/-- Every strict prefix of a canonical package encoding with a well-formed
tail fails to unpack. -/
lemma unpack_take_none (ty : Nat) (rid sid T : List Nat)
    (hrv : validUtf8 rid = true) (hrl : rid.length < 2 ^ 16)
    (hsv : validUtf8 sid = true) (hsl : sid.length < 2 ^ 16)
    (hT7 : 7 ≤ T.length)
    (hTsz : fromLe16 (T.getD 5 0) (T.getD 6 0) = T.length - 7) (k : Nat)
    (hk : k < (ty :: (le16 rid.length ++ (rid ++ (le16 sid.length ++ (sid ++ T))))).length) :
    SlowPackage.unpack
      ((ty :: (le16 rid.length ++ (rid ++ (le16 sid.length ++ (sid ++ T))))).take k) = none := by
  have hlen : (ty :: (le16 rid.length ++ (rid ++ (le16 sid.length ++ (sid ++ T))))).length =
      5 + rid.length + sid.length + T.length := by
    rw [le16_cons, le16_cons]
    simp only [List.length_cons, List.length_append]
    omega
  rcases Nat.lt_or_ge k 8 with h8 | h8
  · apply unpack_small
    rw [List.length_take]
    omega
  · rcases Nat.lt_or_ge k (3 + rid.length) with hr | hr
    · -- truncation inside the recipient id
      obtain ⟨j, rfl⟩ : ∃ j, k = j + 1 + 1 + 1 := ⟨k - 3, by omega⟩
      rw [le16_cons]
      simp only [List.take_succ_cons]
      rw [List.take_append_eq_append_take, (show j - rid.length = 0 by omega),
        List.take_zero, List.append_nil, ← le16_cons]
      exact unpack_rid_none ty _
        (junction_id_unpack_short rid.length _ hrl (by rw [List.length_take]; omega))
    · rcases Nat.lt_or_ge k (5 + rid.length) with hs1 | hs1
      · -- truncation inside the sender length field
        obtain ⟨j, rfl⟩ : ∃ j, k = rid.length + j + 1 + 1 + 1 := ⟨k - 3 - rid.length, by omega⟩
        rw [le16_cons]
        simp only [List.take_succ_cons]
        rw [List.take_append, ← le16_cons]
        have hYnone : JunctionId.unpack ((le16 sid.length ++ (sid ++ T)).take j) = none := by
          apply junction_id_unpack_len2
          rw [List.length_take]
          simp only [List.length_append, le16_length]
          omega
        exact unpack_sid_none ty rid _ hrv hrl hYnone
      · rcases Nat.lt_or_ge k (5 + rid.length + sid.length) with hs2 | hs2
        · -- truncation inside the sender id
          obtain ⟨j, rfl⟩ : ∃ j, k = rid.length + (j + 1 + 1) + 1 + 1 + 1 :=
            ⟨k - 5 - rid.length, by omega⟩
          rw [le16_cons]
          simp only [List.take_succ_cons]
          rw [List.take_append, le16_cons]
          simp only [List.take_succ_cons]
          rw [List.take_append_eq_append_take, (show j - sid.length = 0 by omega),
            List.take_zero, List.append_nil, ← le16_cons, ← le16_cons]
          exact unpack_sid_none ty rid _ hrv hrl
            (junction_id_unpack_short sid.length _ hsl (by rw [List.length_take]; omega))
        · -- truncation inside the tail T
          obtain ⟨j, rfl⟩ : ∃ j, k = rid.length + (sid.length + j + 1 + 1) + 1 + 1 + 1 :=
            ⟨k - 5 - rid.length - sid.length, by omega⟩
          have hjT : j < T.length := by omega
          rw [le16_cons]
          simp only [List.take_succ_cons]
          rw [List.take_append, le16_cons]
          simp only [List.take_succ_cons]
          rw [List.take_append, ← le16_cons, ← le16_cons]
          rw [unpack_shape _ ty rid sid (T.take j) rfl hrv hrl hsv hsl]
          have hTlen : (T.take j).length = j := by
            rw [List.length_take]
            omega
          by_cases hj8 :
              (ty :: (le16 rid.length ++ (rid ++ (le16 sid.length ++ (sid ++ T.take j))))).length
                < 8
          · rw [if_pos hj8]
          · rw [if_neg hj8]
            by_cases hj7 : (T.take j).length < 7
            · rw [if_pos hj7]
            · rw [if_neg hj7]
              rw [getD_take_of_lt T (show 5 < j by omega), getD_take_of_lt T (show 6 < j by omega),
                hTsz]
              rw [if_pos (by omega)]

lemma le32_length (n : Nat) : (le32 n).length = 4 := rfl

/-- Successful evaluation of SlowPackage::unpack on a canonical encoding
whose payload_size field matches the payload length. The package_type byte
is arbitrary: unpack stores it without validation. -/
lemma unpack_shape_success (ty hop pid sz : Nat) (rid sid payload : List Nat)
    (hrv : validUtf8 rid = true) (hrl : rid.length < 2 ^ 16)
    (hsv : validUtf8 sid = true) (hsl : sid.length < 2 ^ 16)
    (hsz : sz = payload.length) (hszlt : sz < 2 ^ 16) (hpid : pid < 2 ^ 32) :
    SlowPackage.unpack (ty :: (le16 rid.length ++ (rid ++ (le16 sid.length ++ (sid ++
        (hop :: (le32 pid ++ (le16 sz ++ payload)))))))) =
      some { header := { package_type := ty, recipient_id := ⟨rid⟩, sender_id := ⟨sid⟩,
                         hop_count := hop, package_id := pid, payload_size := sz },
             payload := payload } := by
  rw [unpack_shape _ ty rid sid _ rfl hrv hrl hsv hsl]
  have hTlen : (hop :: (le32 pid ++ (le16 sz ++ payload))).length = 7 + payload.length := by
    simp only [List.length_cons, List.length_append, le16_length, le32_length]
    omega
  have hDlen : (ty :: (le16 rid.length ++ (rid ++ (le16 sid.length ++ (sid ++
      (hop :: (le32 pid ++ (le16 sz ++ payload)))))))).length =
      5 + rid.length + sid.length + (7 + payload.length) := by
    rw [le16_cons, le16_cons]
    simp only [List.length_cons, List.length_append, le16_length, le32_length]
    omega
  rw [if_neg (by omega), if_neg (by omega)]
  have h5 : (hop :: (le32 pid ++ (le16 sz ++ payload))).getD 5 0 = sz % 256 := rfl
  have h6 : (hop :: (le32 pid ++ (le16 sz ++ payload))).getD 6 0 = sz / 256 % 256 := rfl
  rw [h5, h6, fromLe16_le16 hszlt, hTlen, if_neg (by omega)]
  have h0 : (hop :: (le32 pid ++ (le16 sz ++ payload))).getD 0 0 = hop := rfl
  have h1 : (hop :: (le32 pid ++ (le16 sz ++ payload))).getD 1 0 = pid % 256 := rfl
  have h2 : (hop :: (le32 pid ++ (le16 sz ++ payload))).getD 2 0 = pid / 256 % 256 := rfl
  have h3 : (hop :: (le32 pid ++ (le16 sz ++ payload))).getD 3 0 = pid / 2 ^ 16 % 256 := rfl
  have h4 : (hop :: (le32 pid ++ (le16 sz ++ payload))).getD 4 0 = pid / 2 ^ 24 % 256 := rfl
  have h7 : (hop :: (le32 pid ++ (le16 sz ++ payload))).drop 7 = payload := rfl
  rw [h0, h1, h2, h3, h4, h7, fromLe32_le32 hpid]

/-- C4. For every package whose payload length equals its payload_size
field, with valid UTF-8 ids of at most 65 535 bytes, and every u32 id:
unpack of pack succeeds and returns the package with package_id replaced
by the given id; and unpacking any strict prefix of the packed bytes
returns None. -/
theorem pack_unpack_roundtrip (p : SlowPackage) (pid : Nat)
    (hrv : validUtf8 p.header.recipient_id.id = true)
    (hrl : p.header.recipient_id.id.length ≤ 65535)
    (hsv : validUtf8 p.header.sender_id.id = true)
    (hsl : p.header.sender_id.id.length ≤ 65535)
    (hsz : p.header.payload_size = p.payload.length)
    (hpl : p.payload.length ≤ 65535)
    (hpid : pid < 2 ^ 32) :
    SlowPackage.unpack (p.pack pid) =
      some { p with header := { p.header with package_id := pid } } ∧
    (∀ k, k < (p.pack pid).length → SlowPackage.unpack ((p.pack pid).take k) = none) := by
  constructor
  · rw [pack_eq_shape,
      unpack_shape_success p.header.package_type p.header.hop_count pid p.header.payload_size
        p.header.recipient_id.id p.header.sender_id.id p.payload hrv (by omega) hsv (by omega)
        hsz (by omega) hpid]
  · intro k hk
    rw [pack_eq_shape] at hk ⊢
    apply unpack_take_none p.header.package_type p.header.recipient_id.id p.header.sender_id.id
      _ hrv (by omega) hsv (by omega) _ _ k hk
    · simp only [List.length_cons, List.length_append, le16_length, le32_length]
      omega
    · have h5 : (p.header.hop_count ::
          (le32 pid ++ (le16 p.header.payload_size ++ p.payload))).getD 5 0 =
          p.header.payload_size % 256 := rfl
      have h6 : (p.header.hop_count ::
          (le32 pid ++ (le16 p.header.payload_size ++ p.payload))).getD 6 0 =
          p.header.payload_size / 256 % 256 := rfl
      rw [h5, h6, fromLe16_le16 (by omega)]
      simp only [List.length_cons, List.length_append, le16_length, le32_length]
      omega

/-- Witness for C4: the roundtrip and truncation contract applied to the
14-byte ping package with new package id 7. -/
theorem pack_unpack_roundtrip_witness :
    (validUtf8 pingRS.header.recipient_id.id = true ∧
      pingRS.header.recipient_id.id.length ≤ 65535 ∧
      validUtf8 pingRS.header.sender_id.id = true ∧
      pingRS.header.sender_id.id.length ≤ 65535 ∧
      pingRS.header.payload_size = pingRS.payload.length ∧
      pingRS.payload.length ≤ 65535 ∧ (7 : Nat) < 2 ^ 32) ∧
    (SlowPackage.unpack (pingRS.pack 7) =
        some { pingRS with header := { pingRS.header with package_id := 7 } } ∧
      (∀ k, k < (pingRS.pack 7).length →
        SlowPackage.unpack ((pingRS.pack 7).take k) = none)) :=
  ⟨⟨by decide, by decide, by decide, by decide, by decide, by decide, by decide⟩,
    pack_unpack_roundtrip pingRS 7 (by decide) (by decide) (by decide) (by decide) (by decide)
      (by decide) (by decide)⟩

lemma junction_id_unpack_bad (id rest : List Nat) (hv : validUtf8 id = false)
    (hl : id.length < 2 ^ 16) :
    JunctionId.unpack (le16 id.length ++ (id ++ rest)) = none := by
  unfold JunctionId.unpack
  rw [le16_cons]
  have h1 : ¬ ((id.length % 256 :: id.length / 256 % 256 :: (id ++ rest)).length < 2) := by
    simp
  have h2 : fromLe16 ((id.length % 256 :: id.length / 256 % 256 :: (id ++ rest)).getD 0 0)
      ((id.length % 256 :: id.length / 256 % 256 :: (id ++ rest)).getD 1 0) = id.length := by
    simpa using fromLe16_le16 hl
  simp only [h2, if_neg h1]
  have h3 : ¬ ((id.length % 256 :: id.length / 256 % 256 :: (id ++ rest)).length <
      2 + id.length) := by
    simp only [List.length_cons, List.length_append, not_lt]
    omega
  have h4 : ((id.length % 256 :: id.length / 256 % 256 :: (id ++ rest)).drop 2).take id.length
      = id := by
    simp [List.take_left]
  rw [if_neg h3, h4, if_neg (by simp [hv])]

/-- C3 amended. SlowPackage::unpack fails (returns None) on truncation at
any field boundary, on non-UTF-8 bytes inside the recipient or the sender
JunctionId, and on a payload_size field not equal to the count of
remaining bytes; but it does not validate the package_type byte: an
otherwise well-formed input with any first byte, including values outside
0..5, unpacks successfully with that byte stored verbatim. -/
theorem unpack_failure_modes (q : SlowPackage) (qid k : Nat) (bs rest rest2 : List Nat)
    (ty hop pid sz : Nat) (rid sid payload : List Nat)
    (hqrv : validUtf8 q.header.recipient_id.id = true)
    (hqrl : q.header.recipient_id.id.length ≤ 65535)
    (hqsv : validUtf8 q.header.sender_id.id = true)
    (hqsl : q.header.sender_id.id.length ≤ 65535)
    (hqsz : q.header.payload_size = q.payload.length)
    (hqpl : q.payload.length ≤ 65535)
    (hqid : qid < 2 ^ 32)
    (hk : k < (q.pack qid).length)
    (hbs : validUtf8 bs = false) (hbsl : bs.length < 2 ^ 16)
    (hrv : validUtf8 rid = true) (hrl : rid.length < 2 ^ 16)
    (hsv : validUtf8 sid = true) (hsl : sid.length < 2 ^ 16)
    (hszlt : sz < 2 ^ 16) (hszne : sz ≠ payload.length)
    (hplt : payload.length < 2 ^ 16) (hpid : pid < 2 ^ 32) :
    SlowPackage.unpack ((q.pack qid).take k) = none ∧
    SlowPackage.unpack (ty :: (le16 bs.length ++ (bs ++ rest))) = none ∧
    SlowPackage.unpack (ty :: (le16 rid.length ++ (rid ++ (le16 bs.length ++ (bs ++ rest2)))))
      = none ∧
    SlowPackage.unpack (ty :: (le16 rid.length ++ (rid ++ (le16 sid.length ++ (sid ++
      (hop :: (le32 pid ++ (le16 sz ++ payload)))))))) = none ∧
    SlowPackage.unpack (ty :: (le16 rid.length ++ (rid ++ (le16 sid.length ++ (sid ++
      (hop :: (le32 pid ++ (le16 payload.length ++ payload)))))))) =
      some { header := { package_type := ty, recipient_id := ⟨rid⟩, sender_id := ⟨sid⟩,
                         hop_count := hop, package_id := pid, payload_size := payload.length },
             payload := payload } := by
  refine ⟨?_, ?_, ?_, ?_, ?_⟩
  · rw [pack_eq_shape] at hk ⊢
    apply unpack_take_none q.header.package_type q.header.recipient_id.id q.header.sender_id.id
      _ hqrv (by omega) hqsv (by omega) _ _ k hk
    · simp only [List.length_cons, List.length_append, le16_length, le32_length]
      omega
    · have h5 : (q.header.hop_count ::
          (le32 qid ++ (le16 q.header.payload_size ++ q.payload))).getD 5 0 =
          q.header.payload_size % 256 := rfl
      have h6 : (q.header.hop_count ::
          (le32 qid ++ (le16 q.header.payload_size ++ q.payload))).getD 6 0 =
          q.header.payload_size / 256 % 256 := rfl
      rw [h5, h6, fromLe16_le16 (by omega)]
      simp only [List.length_cons, List.length_append, le16_length, le32_length]
      omega
  · exact unpack_rid_none ty _ (junction_id_unpack_bad bs rest hbs hbsl)
  · exact unpack_sid_none ty rid _ hrv hrl (junction_id_unpack_bad bs rest2 hbs hbsl)
  · rw [unpack_shape _ ty rid sid _ rfl hrv hrl hsv hsl]
    have hTlen : (hop :: (le32 pid ++ (le16 sz ++ payload))).length = 7 + payload.length := by
      simp only [List.length_cons, List.length_append, le16_length, le32_length]
      omega
    have hDlen : (ty :: (le16 rid.length ++ (rid ++ (le16 sid.length ++ (sid ++
        (hop :: (le32 pid ++ (le16 sz ++ payload)))))))).length =
        5 + rid.length + sid.length + (7 + payload.length) := by
      rw [le16_cons, le16_cons]
      simp only [List.length_cons, List.length_append, le16_length, le32_length]
      omega
    rw [if_neg (by omega), if_neg (by omega)]
    have h5 : (hop :: (le32 pid ++ (le16 sz ++ payload))).getD 5 0 = sz % 256 := rfl
    have h6 : (hop :: (le32 pid ++ (le16 sz ++ payload))).getD 6 0 = sz / 256 % 256 := rfl
    rw [h5, h6, fromLe16_le16 hszlt, hTlen, if_pos (by omega)]
  · exact unpack_shape_success ty hop pid payload.length rid sid payload hrv hrl hsv hsl rfl
      hplt hpid

/-- Witness for C3 amended: the failure-mode contract applied at concrete
inputs (the ping package truncated to 5 bytes, the invalid byte 0xFF as an
id, a payload_size of 1 against an empty payload, and first byte 6). -/
theorem unpack_failure_modes_witness :
    ((validUtf8 pingRS.header.recipient_id.id = true ∧
       pingRS.header.payload_size = pingRS.payload.length ∧
       (5 : Nat) < (pingRS.pack 7).length ∧
       validUtf8 [0xFF] = false ∧ (1 : Nat) ≠ List.length ([] : List Nat)) ∧
     (SlowPackage.unpack ((pingRS.pack 7).take 5) = none ∧
       SlowPackage.unpack (6 :: (le16 ([0xFF] : List Nat).length ++ ([0xFF] ++ [0, 0, 0, 0, 0, 0, 0, 0]))) = none ∧
       SlowPackage.unpack (6 :: (le16 ([82] : List Nat).length ++ ([82] ++
         (le16 ([0xFF] : List Nat).length ++ ([0xFF] ++ [0, 0, 0, 0, 0, 0, 0, 0]))))) = none ∧
       SlowPackage.unpack (6 :: (le16 ([82] : List Nat).length ++ ([82] ++
         (le16 ([83] : List Nat).length ++ ([83] ++
           (0 :: (le32 0 ++ (le16 1 ++ ([] : List Nat))))))))) = none ∧
       SlowPackage.unpack (6 :: (le16 ([82] : List Nat).length ++ ([82] ++
         (le16 ([83] : List Nat).length ++ ([83] ++
           (0 :: (le32 0 ++ (le16 (List.length ([] : List Nat)) ++ ([] : List Nat))))))))) =
         some { header := { package_type := 6, recipient_id := ⟨[82]⟩, sender_id := ⟨[83]⟩,
                            hop_count := 0, package_id := 0,
                            payload_size := List.length ([] : List Nat) },
                payload := [] })) :=
  ⟨⟨by decide, by decide, by decide, by decide, by decide⟩,
    unpack_failure_modes pingRS 7 5 [0xFF] [0, 0, 0, 0, 0, 0, 0, 0] [0, 0, 0, 0, 0, 0, 0, 0]
      6 0 0 1 [82] [83] []
      (by decide) (by decide) (by decide) (by decide) (by decide) (by decide) (by decide)
      (by decide) (by decide) (by decide) (by decide) (by decide) (by decide) (by decide)
      (by decide) (by decide) (by decide) (by decide)⟩

-- ===========================================================================
-- C6 : the sliding-window duplicate invariant
-- ===========================================================================

lemma runTracker_nil (t : PacketTracker) : runTracker t [] = t := rfl

lemma runTracker_cons (t : PacketTracker) (a : Nat) (l : List Nat) :
    runTracker t (a :: l) = runTracker (t.update a).snd l := rfl

lemma testBit_or_one (bf : Nat) : (bf ||| 1).testBit 0 = true := by
  rw [Nat.testBit_or]
  simp

lemma testBit_shl_or_one {bf : Nat} {s k : Nat} (hs : s ≤ k) (hk : k < 64)
    (hb : bf.testBit (k - s) = true) :
    ((bf <<< s % 2 ^ 64) ||| 1).testBit k = true := by
  rw [Nat.testBit_or, Nat.testBit_mod_two_pow, Nat.testBit_shiftLeft]
  simp [hs, hk, hb]

/-- In the no-wrap regime, update rewritten through the claimed case
analysis with all hypotheses discharged. -/
lemma update_eq_claimed_small (t : PacketTracker) (x : Nat)
    (hh : t.highest_packet_id < 2 ^ 63) (hx : x < 2 ^ 63) :
    t.update x = claimedUpdate t x :=
  update_eq_claimedUpdate t x (by omega) (by omega) (by omega) (by omega)

lemma update_highest_lt (t : PacketTracker) (x : Nat)
    (hh : t.highest_packet_id < 2 ^ 63) (hx : x < 2 ^ 63) :
    (t.update x).snd.highest_packet_id < 2 ^ 63 := by
  rw [update_eq_claimed_small t x hh hx]
  unfold claimedUpdate
  dsimp only
  split_ifs <;> simp_all

lemma update_highest_mono (t : PacketTracker) (x : Nat)
    (hh : t.highest_packet_id < 2 ^ 63) (hx : x < 2 ^ 63) :
    t.highest_packet_id ≤ (t.update x).snd.highest_packet_id := by
  rw [update_eq_claimed_small t x hh hx]
  unfold claimedUpdate
  dsimp only
  split_ifs with h1 h2 h3 h4 h5 <;> simp <;> omega

lemma update_success_ge (t : PacketTracker) (x : Nat)
    (hh : t.highest_packet_id < 2 ^ 63) (hx : x < 2 ^ 63)
    (hs : (t.update x).fst = .Success) :
    x ≤ (t.update x).snd.highest_packet_id := by
  rw [update_eq_claimed_small t x hh hx] at hs ⊢
  unfold claimedUpdate at hs ⊢
  dsimp only at hs ⊢
  split_ifs at hs ⊢ with h1 h2 h3 h4 h5
  · dsimp only
    omega
  · dsimp only
    omega
  · dsimp only
    omega

lemma update_Seen_of_success (t : PacketTracker) (x : Nat)
    (hh : t.highest_packet_id < 2 ^ 63) (hx : x < 2 ^ 63)
    (hs : (t.update x).fst = .Success) :
    Seen (t.update x).snd x := by
  rw [update_eq_claimed_small t x hh hx] at hs ⊢
  unfold claimedUpdate at hs ⊢
  dsimp only at hs ⊢
  split_ifs at hs ⊢ with h1 h2 h3 h4 h5
  · -- window admit: bit (-shift) newly set, highest unchanged
    right
    refine ⟨by dsimp only; omega, by dsimp only; omega, ?_⟩
    dsimp only
    have hk : (-((x : Int) - t.highest_packet_id)).toNat = t.highest_packet_id - x := by omega
    rw [hk] at h4 ⊢
    rw [Nat.testBit_or]
    simp [Nat.testBit_two_pow_self]
  · -- reset: highest = x, bitfield = 1
    left
    exact ⟨rfl, by simp⟩
  · -- shift: highest = x, bit 0 set
    left
    exact ⟨rfl, testBit_or_one _⟩

lemma update_Seen_preserved (t : PacketTracker) (x id : Nat)
    (hh : t.highest_packet_id < 2 ^ 63) (hx : x < 2 ^ 63) (hid : id < 2 ^ 63)
    (hseen : Seen t id)
    (hcond : (t.update x).fst = .Success → x ≤ id + 63) :
    Seen (t.update x).snd id := by
  have hle : id ≤ t.highest_packet_id := by
    rcases hseen with ⟨h1, -⟩ | ⟨h1, -, -⟩ <;> omega
  rw [update_eq_claimed_small t x hh hx] at hcond ⊢
  unfold claimedUpdate at hcond ⊢
  dsimp only at hcond ⊢
  split_ifs at hcond ⊢ with h1 h2 h3 h4 h5
  · exact hseen
  · exact hseen
  · exact hseen
  · -- window admit of x: highest unchanged, one more bit set
    rcases hseen with ⟨e1, e2⟩ | ⟨e1, e2, e3⟩
    · exact Or.inl ⟨e1, by dsimp only; rw [Nat.testBit_or]; simp [e2]⟩
    · exact Or.inr ⟨e1, e2, by dsimp only; rw [Nat.testBit_or]; simp [e3]⟩
  · -- reset branch would clear the window; excluded by hcond
    have hxbig : x ≤ id + 63 := hcond (by simp)
    exact absurd hxbig (by omega)
  · -- shift branch: highest becomes x, window slides
    have hxbig : x ≤ id + 63 := hcond (by simp)
    have hlt : t.highest_packet_id < x := by omega
    have hsn : ((x : Int) - t.highest_packet_id).toNat = x - t.highest_packet_id := by omega
    rw [hsn]
    rcases hseen with ⟨e1, e2⟩ | ⟨e1, e2, e3⟩
    · right
      refine ⟨by dsimp only; omega, by dsimp only; omega, ?_⟩
      dsimp only
      exact testBit_shl_or_one (by omega) (by omega)
        (by rw [(show x - id - (x - t.highest_packet_id) = 0 by omega)]; exact e2)
    · right
      refine ⟨by dsimp only; omega, by dsimp only; omega, ?_⟩
      dsimp only
      exact testBit_shl_or_one (by omega) (by omega)
        (by rw [(show x - id - (x - t.highest_packet_id) = t.highest_packet_id - id by omega)]
            exact e3)

lemma Seen_update_Duplicate (t : PacketTracker) (id : Nat)
    (hh : t.highest_packet_id < 2 ^ 63) (hid : id < 2 ^ 63)
    (hseen : Seen t id) :
    (t.update id).fst = .Duplicate := by
  rw [update_eq_claimed_small t id hh hid]
  unfold claimedUpdate
  dsimp only
  rcases hseen with ⟨e1, e2⟩ | ⟨e1, e2, e3⟩
  · rw [if_pos (by omega)]
  · rw [if_neg (by omega), if_neg (by omega)]
    have hk : (-((id : Int) - t.highest_packet_id)).toNat = t.highest_packet_id - id := by omega
    rw [if_pos (by omega), hk, if_pos e3]

lemma update_Old (t : PacketTracker) (id : Nat)
    (hh : t.highest_packet_id < 2 ^ 63) (hid : id < 2 ^ 63)
    (hfar : id + 63 < t.highest_packet_id) :
    (t.update id).fst = .Old := by
  rw [update_eq_claimed_small t id hh hid]
  unfold claimedUpdate
  dsimp only
  rw [if_neg (by omega), if_pos (by omega)]

lemma runTracker_wf (ids : List Nat) : ∀ t : PacketTracker,
    t.highest_packet_id < 2 ^ 63 → (∀ x ∈ ids, x < 2 ^ 63) →
    (runTracker t ids).highest_packet_id < 2 ^ 63 ∧
    t.highest_packet_id ≤ (runTracker t ids).highest_packet_id := by
  induction ids with
  | nil => exact fun t hh _ => ⟨hh, le_refl _⟩
  | cons a l ih =>
    intro t hh hmem
    have ha : a < 2 ^ 63 := hmem a (List.mem_cons_self _ _)
    have h1 := update_highest_lt t a hh ha
    have h2 := update_highest_mono t a hh ha
    have h3 := ih (t.update a).snd h1 (fun x hx => hmem x (List.mem_cons_of_mem a hx))
    rw [runTracker_cons]
    exact ⟨h3.1, le_trans h2 h3.2⟩

lemma runTracker_Seen (id : Nat) (hid : id < 2 ^ 63) (ids : List Nat) : ∀ t : PacketTracker,
    t.highest_packet_id < 2 ^ 63 → (∀ x ∈ ids, x < 2 ^ 63) → Seen t id →
    (∀ j (hj : j < ids.length),
      ((runTracker t (ids.take j)).update (ids.get ⟨j, hj⟩)).fst = .Success →
      ids.get ⟨j, hj⟩ ≤ id + 63) →
    Seen (runTracker t ids) id := by
  induction ids with
  | nil => exact fun t _ _ hseen _ => hseen
  | cons a l ih =>
    intro t hh hmem hseen H
    have ha : a < 2 ^ 63 := hmem a (List.mem_cons_self _ _)
    have h0 : (t.update a).fst = .Success → a ≤ id + 63 := by
      have := H 0 (by simp)
      simpa using this
    have hseen' : Seen (t.update a).snd id :=
      update_Seen_preserved t a id hh ha hid hseen h0
    rw [runTracker_cons]
    apply ih (t.update a).snd (update_highest_lt t a hh ha)
      (fun x hx => hmem x (List.mem_cons_of_mem a hx)) hseen'
    intro j hj hS
    have := H (j + 1) (by simpa using Nat.succ_lt_succ hj)
    simpa using this (by simpa using hS)

lemma runTracker_big (id : Nat) (ids : List Nat) : ∀ t : PacketTracker,
    t.highest_packet_id < 2 ^ 63 → (∀ x ∈ ids, x < 2 ^ 63) →
    (∃ j, ∃ hj : j < ids.length,
      ((runTracker t (ids.take j)).update (ids.get ⟨j, hj⟩)).fst = .Success ∧
      id + 63 < ids.get ⟨j, hj⟩) →
    id + 63 < (runTracker t ids).highest_packet_id := by
  induction ids with
  | nil =>
    rintro t _ _ ⟨j, hj, -⟩
    exact absurd hj (by simp)
  | cons a l ih =>
    rintro t hh hmem ⟨j, hj, hS, hbig⟩
    have ha : a < 2 ^ 63 := hmem a (List.mem_cons_self _ _)
    rw [runTracker_cons]
    match j with
    | 0 =>
      have hS0 : (t.update a).fst = .Success := by simpa using hS
      have hbig0 : id + 63 < a := by simpa using hbig
      have hge : a ≤ (t.update a).snd.highest_packet_id :=
        update_success_ge t a hh ha hS0
      have hmono := (runTracker_wf l (t.update a).snd (update_highest_lt t a hh ha)
        (fun x hx => hmem x (List.mem_cons_of_mem a hx))).2
      omega
    | j' + 1 =>
      apply ih (t.update a).snd (update_highest_lt t a hh ha)
        (fun x hx => hmem x (List.mem_cons_of_mem a hx))
      refine ⟨j', by simpa using Nat.lt_of_succ_lt_succ (by simpa using hj), ?_, ?_⟩
      · simpa using hS
      · simpa using hbig

/-- C6 amended. Provided the tracker state and all ids involved are below
2 to the 63 (so the i64 shift computation cannot wrap): for every id
admitted as Success, a later update(id) returns Duplicate as long as no
intervening Success admitted an id2 with id2 greater than id plus 63;
and whenever such an id2 was admitted, the later update(id) returns Old.
Without the bound the claim fails, see the counterexample. -/
theorem tracker_duplicate_after_success (t0 : PacketTracker) (id : Nat) (ids : List Nat)
    (hh : t0.highest_packet_id < 2 ^ 63) (hid : id < 2 ^ 63)
    (hids : ∀ x ∈ ids, x < 2 ^ 63)
    (hsucc : (t0.update id).fst = .Success) :
    ((∀ j (hj : j < ids.length),
        ((runTracker (t0.update id).snd (ids.take j)).update (ids.get ⟨j, hj⟩)).fst = .Success →
        ids.get ⟨j, hj⟩ ≤ id + 63) →
      ((runTracker (t0.update id).snd ids).update id).fst = .Duplicate) ∧
    (∀ j (hj : j < ids.length),
        ((runTracker (t0.update id).snd (ids.take j)).update (ids.get ⟨j, hj⟩)).fst = .Success →
        id + 63 < ids.get ⟨j, hj⟩ →
        ((runTracker (t0.update id).snd ids).update id).fst = .Old) := by
  have hh1 : (t0.update id).snd.highest_packet_id < 2 ^ 63 :=
    update_highest_lt t0 id hh hid
  have hwf := runTracker_wf ids (t0.update id).snd hh1 hids
  constructor
  · intro H
    have hseen1 : Seen (t0.update id).snd id := update_Seen_of_success t0 id hh hid hsucc
    have hfinal : Seen (runTracker (t0.update id).snd ids) id :=
      runTracker_Seen id hid ids (t0.update id).snd hh1 hids hseen1 H
    exact Seen_update_Duplicate _ id hwf.1 hid hfinal
  · intro j hj hS hbig
    have hfar : id + 63 < (runTracker (t0.update id).snd ids).highest_packet_id :=
      runTracker_big id ids (t0.update id).snd hh1 hids ⟨j, hj, hS, hbig⟩
    exact update_Old _ id hwf.1 hid hfar

/-- Witness for C6 amended: the duplicate-window contract applied to a
fresh tracker, id 5, and the intervening id list containing only 7. -/
theorem tracker_duplicate_after_success_witness :
    (PacketTracker.new.highest_packet_id < 2 ^ 63 ∧ (5 : Nat) < 2 ^ 63 ∧
      (∀ x ∈ [7], x < 2 ^ 63) ∧ (PacketTracker.new.update 5).fst = .Success) ∧
    (((∀ j (hj : j < ([7] : List Nat).length),
        ((runTracker (PacketTracker.new.update 5).snd (([7] : List Nat).take j)).update
          (([7] : List Nat).get ⟨j, hj⟩)).fst = .Success →
        ([7] : List Nat).get ⟨j, hj⟩ ≤ 5 + 63) →
      ((runTracker (PacketTracker.new.update 5).snd [7]).update 5).fst = .Duplicate) ∧
    (∀ j (hj : j < ([7] : List Nat).length),
        ((runTracker (PacketTracker.new.update 5).snd (([7] : List Nat).take j)).update
          (([7] : List Nat).get ⟨j, hj⟩)).fst = .Success →
        5 + 63 < ([7] : List Nat).get ⟨j, hj⟩ →
        ((runTracker (PacketTracker.new.update 5).snd [7]).update 5).fst = .Old)) :=
  ⟨⟨by decide, by decide, by decide, by decide⟩,
    tracker_duplicate_after_success PacketTracker.new 5 [7] (by decide) (by decide)
      (by decide) (by decide)⟩

end Slow
